import Mathlib

/-!
Verification development for the djem object-level permission engine
(`djem/auth.py`): a shallow embedding of `ObjectPermissionsBackend`,
`OLPMixin` and the Django model-level permission substrate they consume,
together with proofs of the engine's specified properties.

Modelling conventions:
* Python's tri-state cached access value (`True` / `False` / `None`) is
  `Option Bool`; truthiness is `truthy`.
* The per-instance `_olp_cache` dict is an association list with Python
  dict semantics (first-match lookup, overwrite-or-append insert).
* A predicate attached to an entity either returns a value, raises
  `PermissionDenied`, or raises some other exception; exceptions other
  than `PermissionDenied` propagate as `Except.error ()`, in which case
  no cache write for the key in question has been performed.
* Each engine operation also returns the list of cache keys whose
  predicate was actually invoked during the call, so that the "no
  predicate is invoked" / "invokes the predicate at most once" claims
  are statable.
-/

namespace Djem

/-- Tri-state access value as stored in the object-level permission cache:
`some true` models Python `True` (granted), `some false` models `False`
(denied), `none` models `None` (no opinion: no predicate existed). -/
abbrev Access := Option Bool

/-- Python truthiness of an access value: only `True` is truthy. -/
def truthy : Access → Bool
  | some b => b
  | none => false

/-- An authenticating actor. `uid` is the stable identity; `olp_cache`
models the `_olp_cache` dict of `OLPMixin.__init__`; the three `Bool`
flags model the presence of Django's lazily-created model-level
permission-cache attributes (`_user_perm_cache`, `_group_perm_cache`,
`_perm_cache`), which `OLPMixin.clear_perm_cache` deletes with `del`. -/
structure Principal where
  uid : Nat
  is_active : Bool
  is_superuser : Bool
  is_anonymous : Bool
  groups : List String
  olp_cache : List (String × Access)
  user_perm_cache : Bool
  group_perm_cache : Bool
  perm_cache : Bool
deriving DecidableEq, Repr

/-- The argument a predicate is invoked with: the user object itself for
the "user" source, `user_obj.groups.all()` for the "group" source. -/
inductive PredArg where
  | user (p : Principal)
  | groups (gs : List String)

/-- Outcome of invoking a predicate: a returned value (collapsed to its
truthiness class, with Python `None` kept distinct), a raised
`PermissionDenied`, or any other raised exception. -/
inductive PredResult where
  | value (v : Access)
  | denied
  | error

/-- An instance-level access predicate attached to an entity. -/
abbrev Pred := PredArg → PredResult

/-- A target entity instance: primary key (as its string form used in the
cache key), content-type coordinates, and its attribute table as seen by
`getattr(obj, name, None)` restricted to callable predicates. -/
structure Entity where
  pk : String
  app_label : String
  model_name : String
  attrs : String → Option Pred

/-- The environment: the `DJEM_UNIVERSAL_OLP` setting and the external
PermissionCatalog collaborator (Django's model-level permission
substrate): `catalog uid perm` answers the model-level question for a
non-superuser principal (direct and group grants combined), and
`perm_codenames app model` lists the permission codenames defined for a
content type. -/
structure Env where
  universal_olp : Bool
  catalog : Nat → String → Bool
  perm_codenames : String → String → List String

/-- Cache key: `'{0}-{1}-{2}'.format(from_name, perm, obj.pk)`. -/
def mkKey (from_name perm pk : String) : String :=
  from_name ++ "-" ++ perm ++ "-" ++ pk

/-- The action code of a permission: `perm.split('.')[-1]`, i.e. the
segment after the last `'.'` (the whole string when there is no dot). -/
def action_code (perm : String) : String :=
  ⟨perm.data.foldl (fun acc c => if c = '.' then [] else acc ++ [c]) []⟩

/-- Python dict lookup on the association-list cache. -/
def lookupKV : List (String × Access) → String → Option Access
  | [], _ => none
  | (k, v) :: rest, key => if k = key then some v else lookupKV rest key

/-- Python dict assignment on the association-list cache. -/
def insertKV : List (String × Access) → String → Access → List (String × Access)
  | [], key, v => [(key, v)]
  | (k, w) :: rest, key, v =>
      if k = key then (k, v) :: rest else (k, w) :: insertKV rest key v

/-- `perm_cache[perm_cache_name] = access` on the user instance. -/
def write_olp (p : Principal) (key : String) (v : Access) : Principal :=
  {p with olp_cache := insertKV p.olp_cache key v}

/-- Django's `ModelBackend` populates `_user_perm_cache`,
`_group_perm_cache` and `_perm_cache` on the user instance when it
resolves model-level permissions. -/
def set_model_perm_caches (p : Principal) : Principal :=
  {p with user_perm_cache := true, group_perm_cache := true, perm_cache := true}

/-- Django `ModelBackend.has_perm(user_obj, perm)` (no object): active,
non-anonymous users are answered from the model-level catalog (caching
the model-level permission sets on the instance); everyone else gets
`False` with no caching. External collaborator of §4.1, modelled from
its documented contract. -/
def model_backend_has_perm (env : Env) (p : Principal) (perm : String) :
    Bool × Principal :=
  if p.is_active && !p.is_anonymous then
    (env.catalog p.uid perm, set_model_perm_caches p)
  else (false, p)

/-- `user_obj.has_perm(perm)` with no object, as dispatched by Django:
active, non-anonymous superusers are granted everything up front (the
`PermissionsMixin.has_perm` shortcut, which `OLPMixin.has_perm` inherits
for the no-object case in both modes); otherwise the `ModelBackend`
answer stands (`ObjectPermissionsBackend.has_perm` returns `False`
without an object and so never contributes here). -/
def model_has_perm (env : Env) (p : Principal) (perm : String) :
    Bool × Principal :=
  if !p.is_anonymous && p.is_active && p.is_superuser then (true, p)
  else model_backend_has_perm env p perm

/-- `ObjectPermissionsBackend._get_object_permission(perm, user_obj, obj,
from_name)`: inactive users are denied before any cache access; then the
cache is consulted; on a miss the model-level permission is a strict
prerequisite, after which the predicate `_{from_name}_can_{action}` on
the entity (absent predicate: `None`) decides, with `PermissionDenied`
mapped to a cached `False` and any other exception propagating with no
cache write for this key. -/
def get_object_permission (env : Env) (perm : String) (p : Principal)
    (e : Entity) (from_name : String) :
    Except Unit (Access × Principal × List String) :=
  if !p.is_active then .ok (some false, p, [])
  else
    let key := mkKey from_name perm e.pk
    match lookupKV p.olp_cache key with
    | some v => .ok (v, p, [])
    | none =>
        match model_has_perm env p perm with
        | (false, p1) => .ok (some false, write_olp p1 key (some false), [])
        | (true, p1) =>
            let fn_name := "_" ++ from_name ++ "_can_" ++ action_code perm
            match e.attrs fn_name with
            | none => .ok (none, write_olp p1 key none, [])
            | some f =>
                let arg := if from_name = "user" then PredArg.user p1
                           else PredArg.groups p1.groups
                match f arg with
                | .value v => .ok (v, write_olp p1 key v, [key])
                | .denied => .ok (some false, write_olp p1 key (some false), [key])
                | .error => .error ()

/-- `ObjectPermissionsBackend.has_perm(user_obj, perm, obj)`: `False`
without an object; otherwise the user source is resolved, the group
source only when the user source did not grant, and the result is the
truthiness of `user_access or group_access or (user_access is None and
group_access is None)`. -/
def backend_has_perm (env : Env) (p : Principal) (perm : String)
    (obj : Option Entity) : Except Unit (Bool × Principal × List String) :=
  match obj with
  | none => .ok (false, p, [])
  | some e =>
      match get_object_permission env perm p e "user" with
      | .error u => .error u
      | .ok (ua, p1, l1) =>
          if truthy ua then .ok (true, p1, l1)
          else
            match get_object_permission env perm p1 e "group" with
            | .error u => .error u
            | .ok (ga, p2, l2) =>
                .ok (truthy ua || truthy ga || (ua.isNone && ga.isNone),
                     p2, l1 ++ l2)

/-- The engine's boolean object-level decision: the value of
`ObjectPermissionsBackend.has_perm` as consumed by a caller. -/
def decidePerm (env : Env) (p : Principal) (perm : String)
    (obj : Option Entity) : Except Unit Bool :=
  (backend_has_perm env p perm obj).map (fun r => r.1)

/-- The per-permission loop of
`ObjectPermissionsBackend._get_object_permissions`: the user source is
consulted unless only group permissions were requested, the group source
when the user source did not grant unless only user permissions were
requested, and the permission is included iff either source granted or
neither source had a defined access method. -/
def perms_loop (env : Env) (e : Entity) (from_name : Option String) :
    List String → Principal → Except Unit (List String × Principal × List String)
  | [], p => .ok ([], p, [])
  | perm :: rest, p =>
      match (if from_name = some "group" then .ok (none, p, [])
             else get_object_permission env perm p e "user") with
      | .error u => .error u
      | .ok (ua, p1, l1) =>
          match (if !truthy ua && from_name ≠ some "user"
                 then get_object_permission env perm p1 e "group"
                 else .ok (none, p1, [])) with
          | .error u => .error u
          | .ok (ga, p2, l2) =>
              match perms_loop env e from_name rest p2 with
              | .error u => .error u
              | .ok (perms, p3, l3) =>
                  .ok ((if truthy ua || truthy ga || (ua.isNone && ga.isNone)
                        then perm :: perms else perms), p3, l1 ++ l2 ++ l3)

/-- The full permission identifiers defined for the entity's content
type: `'{0}.{1}'.format(app, name)` over the catalog's codenames. -/
def perms_for_model (env : Env) (e : Entity) : List String :=
  (env.perm_codenames e.app_label e.model_name).map
    (fun c => e.app_label ++ "." ++ c)

/-- `ObjectPermissionsBackend._get_object_permissions(user_obj, obj,
from_name)`: empty for a missing object, an inactive user or an
anonymous user; the full catalog for a superuser outside "universal"
mode; otherwise the per-permission loop. -/
def get_object_permissions (env : Env) (p : Principal) (obj : Option Entity)
    (from_name : Option String) :
    Except Unit (List String × Principal × List String) :=
  match obj with
  | none => .ok ([], p, [])
  | some e =>
      if !p.is_active || p.is_anonymous then .ok ([], p, [])
      else if p.is_superuser && !env.universal_olp then
        .ok (perms_for_model env e, p, [])
      else perms_loop env e from_name (perms_for_model env e) p

/-- `ObjectPermissionsBackend.get_user_permissions`. -/
def get_user_permissions (env : Env) (p : Principal) (obj : Option Entity) :
    Except Unit (List String × Principal × List String) :=
  get_object_permissions env p obj (some "user")

/-- `ObjectPermissionsBackend.get_group_permissions`. -/
def get_group_permissions (env : Env) (p : Principal) (obj : Option Entity) :
    Except Unit (List String × Principal × List String) :=
  get_object_permissions env p obj (some "group")

/-- `ObjectPermissionsBackend.get_all_permissions`. -/
def get_all_permissions (env : Env) (p : Principal) (obj : Option Entity) :
    Except Unit (List String × Principal × List String) :=
  get_object_permissions env p obj none

/-- `django.contrib.auth.models._user_has_perm`: iterate the configured
backends (`ModelBackend`, then `ObjectPermissionsBackend`); with an
object, `ModelBackend` answers `False` (it supports no object-level
permissions) and the decision is the object backend's. -/
def user_has_perm (env : Env) (p : Principal) (perm : String)
    (obj : Option Entity) : Except Unit (Bool × Principal × List String) :=
  match obj with
  | none =>
      let r := model_backend_has_perm env p perm
      .ok (r.1, r.2, [])
  | some e => backend_has_perm env p perm (some e)

/-- `OLPMixin.has_perm(perm, obj)`: outside `DJEM_UNIVERSAL_OLP` it
defers to the default behaviour (Django's `PermissionsMixin.has_perm`:
active superusers have every permission up front); in universal mode the
superuser shortcut applies only when no object is given, so superusers
are subject to object-level checks. -/
def olp_has_perm (env : Env) (p : Principal) (perm : String)
    (obj : Option Entity) : Except Unit (Bool × Principal × List String) :=
  if !env.universal_olp then
    if p.is_active && p.is_superuser then .ok (true, p, [])
    else user_has_perm env p perm obj
  else
    if obj.isNone && p.is_active && p.is_superuser then .ok (true, p, [])
    else user_has_perm env p perm obj

/-- `OLPMixin.clear_perm_cache`: assign `_olp_cache = {}` and then `del`
the three model-level cache attributes in order; a `del` of an absent
attribute raises `AttributeError` (the returned flag is `false`), with
all effects up to that point retained. -/
def clear_perm_cache (p : Principal) : Principal × Bool :=
  let p1 := {p with olp_cache := []}
  if !p1.user_perm_cache then (p1, false)
  else
    let p2 := {p1 with user_perm_cache := false}
    if !p2.group_perm_cache then (p2, false)
    else
      let p3 := {p2 with group_perm_cache := false}
      if !p3.perm_cache then (p3, false)
      else ({p3 with perm_cache := false}, true)

/-- `OLPMixin.__init__`: a freshly constructed principal starts with an
empty object-level cache and none of the lazily-created model-level
cache attributes. -/
def freshPrincipal (uid : Nat) (active su anon : Bool) (gs : List String) :
    Principal :=
  { uid := uid, is_active := active, is_superuser := su, is_anonymous := anon,
    groups := gs, olp_cache := [], user_perm_cache := false,
    group_perm_cache := false, perm_cache := false }

/-! ### Cache association-list lemmas -/

theorem lookup_insert_self (c : List (String × Access)) (k : String) (v : Access) :
    lookupKV (insertKV c k v) k = some v := by
  induction c with
  | nil => simp [insertKV, lookupKV]
  | cons hd tl ih =>
      obtain ⟨a, w⟩ := hd
      by_cases h : a = k
      · simp [insertKV, lookupKV, h]
      · simp only [insertKV, if_neg h, lookupKV]
        exact ih

theorem lookup_insert_ne (c : List (String × Access)) (k k' : String) (v : Access)
    (h : k' ≠ k) : lookupKV (insertKV c k v) k' = lookupKV c k' := by
  induction c with
  | nil =>
      simp only [insertKV, lookupKV]
      rw [if_neg (Ne.symm h)]
  | cons hd tl ih =>
      obtain ⟨a, w⟩ := hd
      by_cases ha : a = k
      · subst ha
        simp only [insertKV, if_pos rfl, lookupKV]
        rw [if_neg (Ne.symm h), if_neg (Ne.symm h)]
      · simp only [insertKV, if_neg ha, lookupKV]
        by_cases ha' : a = k'
        · rw [if_pos ha', if_pos ha']
        · rw [if_neg ha', if_neg ha', ih]

/-! ### String and cache-key lemmas -/

theorem data_append (s t : String) : (s ++ t).data = s.data ++ t.data := by
  cases s; cases t; rfl

theorem data_inj {s t : String} (h : s.data = t.data) : s = t := by
  cases s; cases t; exact congrArg String.mk h

theorem mkKey_data (f p k : String) :
    (mkKey f p k).data = f.data ++ '-' :: (p.data ++ '-' :: k.data) := by
  have h : ("-" : String).data = ['-'] := rfl
  simp [mkKey, data_append, h]

theorem append_sep_inj {xs ys as bs : List Char}
    (hx : '-' ∉ xs) (ha : '-' ∉ as)
    (h : xs ++ '-' :: ys = as ++ '-' :: bs) : xs = as ∧ ys = bs := by
  induction xs generalizing as with
  | nil =>
      cases as with
      | nil => simpa using h
      | cons a as' =>
          injection h with h1 h2
          exact absurd (h1 ▸ List.mem_cons_self a as') ha
  | cons x xs' ih =>
      cases as with
      | nil =>
          injection h with h1 h2
          exact absurd (h1 ▸ List.mem_cons_self x xs') hx
      | cons a as' =>
          injection h with h1 h2
          have hx' : '-' ∉ xs' := fun hm => hx (List.mem_cons_of_mem x hm)
          have ha' : '-' ∉ as' := fun hm => ha (List.mem_cons_of_mem a hm)
          obtain ⟨e1, e2⟩ := ih hx' ha' h2
          exact ⟨by rw [h1, e1], e2⟩

theorem mkKey_inj {s1 s2 p1 p2 k1 k2 : String}
    (hs1 : s1 = "user" ∨ s1 = "group") (hs2 : s2 = "user" ∨ s2 = "group")
    (hp1 : '-' ∉ p1.data) (hp2 : '-' ∉ p2.data)
    (h : mkKey s1 p1 k1 = mkKey s2 p2 k2) : s1 = s2 ∧ p1 = p2 ∧ k1 = k2 := by
  have hd := congrArg String.data h
  rw [mkKey_data, mkKey_data] at hd
  have hs1' : '-' ∉ s1.data := by
    rcases hs1 with h1 | h1 <;> subst h1 <;> decide
  have hs2' : '-' ∉ s2.data := by
    rcases hs2 with h1 | h1 <;> subst h1 <;> decide
  obtain ⟨e1, rest⟩ := append_sep_inj hs1' hs2' hd
  obtain ⟨e2, e3⟩ := append_sep_inj hp1 hp2 rest
  exact ⟨data_inj e1, data_inj e2, data_inj e3⟩

theorem userKey_ne_groupKey (p1 k1 p2 k2 : String) :
    mkKey "user" p1 k1 ≠ mkKey "group" p2 k2 := by
  intro h
  have hd := congrArg String.data h
  rw [mkKey_data, mkKey_data] at hd
  have h1 : ("user" : String).data = ['u', 's', 'e', 'r'] := rfl
  have h2 : ("group" : String).data = ['g', 'r', 'o', 'u', 'p'] := rfl
  rw [h1, h2] at hd
  simp at hd

/-! ### State-shape lemmas for the model-level check -/

theorem model_has_perm_state (env : Env) (p : Principal) (perm : String) :
    (model_has_perm env p perm).2 = p ∨
    (model_has_perm env p perm).2 = set_model_perm_caches p := by
  unfold model_has_perm model_backend_has_perm
  split
  · exact Or.inl rfl
  · split
    · exact Or.inr rfl
    · exact Or.inl rfl

theorem model_has_perm_olp (env : Env) (p : Principal) (perm : String) :
    (model_has_perm env p perm).2.olp_cache = p.olp_cache := by
  rcases model_has_perm_state env p perm with h | h <;>
    rw [h] <;> simp [set_model_perm_caches]

theorem model_has_perm_flags (env : Env) (p : Principal) (perm : String) :
    (model_has_perm env p perm).2.is_active = p.is_active ∧
    (model_has_perm env p perm).2.is_superuser = p.is_superuser ∧
    (model_has_perm env p perm).2.is_anonymous = p.is_anonymous ∧
    (model_has_perm env p perm).2.groups = p.groups ∧
    (model_has_perm env p perm).2.uid = p.uid := by
  rcases model_has_perm_state env p perm with h | h <;>
    rw [h] <;> simp [set_model_perm_caches]

theorem model_has_perm_true (env : Env) (p : Principal) (perm : String)
    (hact : p.is_active = true) (hanon : p.is_anonymous = false)
    (hcat : env.catalog p.uid perm = true) :
    (model_has_perm env p perm).1 = true := by
  unfold model_has_perm model_backend_has_perm
  split
  · rfl
  · rw [if_pos (by simp [hact, hanon])]
    exact hcat

/-! ### Case equations for `get_object_permission` -/

theorem gop_inactive (env : Env) (perm : String) (p : Principal) (e : Entity)
    (fn : String) (h : p.is_active = false) :
    get_object_permission env perm p e fn = .ok (some false, p, []) := by
  simp [get_object_permission, h]

theorem gop_cached (env : Env) (perm : String) (p : Principal) (e : Entity)
    (fn : String) (v : Access) (hact : p.is_active = true)
    (hc : lookupKV p.olp_cache (mkKey fn perm e.pk) = some v) :
    get_object_permission env perm p e fn = .ok (v, p, []) := by
  simp [get_object_permission, hact, hc]

theorem gop_miss_nomodel (env : Env) (perm : String) (p p1 : Principal)
    (e : Entity) (fn : String) (hact : p.is_active = true)
    (hc : lookupKV p.olp_cache (mkKey fn perm e.pk) = none)
    (hm : model_has_perm env p perm = (false, p1)) :
    get_object_permission env perm p e fn =
      .ok (some false, write_olp p1 (mkKey fn perm e.pk) (some false), []) := by
  simp [get_object_permission, hact, hc, hm]

theorem gop_miss_noattr (env : Env) (perm : String) (p p1 : Principal)
    (e : Entity) (fn : String) (hact : p.is_active = true)
    (hc : lookupKV p.olp_cache (mkKey fn perm e.pk) = none)
    (hm : model_has_perm env p perm = (true, p1))
    (ha : e.attrs ("_" ++ fn ++ "_can_" ++ action_code perm) = none) :
    get_object_permission env perm p e fn =
      .ok (none, write_olp p1 (mkKey fn perm e.pk) none, []) := by
  simp [get_object_permission, hact, hc, hm, ha]

theorem gop_miss_value (env : Env) (perm : String) (p p1 : Principal)
    (e : Entity) (fn : String) (f : Pred) (v : Access)
    (hact : p.is_active = true)
    (hc : lookupKV p.olp_cache (mkKey fn perm e.pk) = none)
    (hm : model_has_perm env p perm = (true, p1))
    (ha : e.attrs ("_" ++ fn ++ "_can_" ++ action_code perm) = some f)
    (hf : f (if fn = "user" then PredArg.user p1 else PredArg.groups p1.groups) =
      .value v) :
    get_object_permission env perm p e fn =
      .ok (v, write_olp p1 (mkKey fn perm e.pk) v, [mkKey fn perm e.pk]) := by
  simp [get_object_permission, hact, hc, hm, ha, hf]

theorem gop_miss_denied (env : Env) (perm : String) (p p1 : Principal)
    (e : Entity) (fn : String) (f : Pred)
    (hact : p.is_active = true)
    (hc : lookupKV p.olp_cache (mkKey fn perm e.pk) = none)
    (hm : model_has_perm env p perm = (true, p1))
    (ha : e.attrs ("_" ++ fn ++ "_can_" ++ action_code perm) = some f)
    (hf : f (if fn = "user" then PredArg.user p1 else PredArg.groups p1.groups) =
      .denied) :
    get_object_permission env perm p e fn =
      .ok (some false, write_olp p1 (mkKey fn perm e.pk) (some false),
           [mkKey fn perm e.pk]) := by
  simp [get_object_permission, hact, hc, hm, ha, hf]

theorem gop_miss_error (env : Env) (perm : String) (p p1 : Principal)
    (e : Entity) (fn : String) (f : Pred)
    (hact : p.is_active = true)
    (hc : lookupKV p.olp_cache (mkKey fn perm e.pk) = none)
    (hm : model_has_perm env p perm = (true, p1))
    (ha : e.attrs ("_" ++ fn ++ "_can_" ++ action_code perm) = some f)
    (hf : f (if fn = "user" then PredArg.user p1 else PredArg.groups p1.groups) =
      .error) :
    get_object_permission env perm p e fn = .error () := by
  simp [get_object_permission, hact, hc, hm, ha, hf]

/-! ### Inversion lemmas for `get_object_permission` -/

theorem gop_ok_state (env : Env) (perm : String) (p : Principal) (e : Entity)
    (fn : String) (a : Access) (p' : Principal) (l : List String)
    (h : get_object_permission env perm p e fn = .ok (a, p', l)) :
    (p' = p ∧ ((p.is_active = false ∧ a = some false) ∨
               lookupKV p.olp_cache (mkKey fn perm e.pk) = some a)) ∨
    (∃ p1, (p1 = p ∨ p1 = set_model_perm_caches p) ∧
      p' = write_olp p1 (mkKey fn perm e.pk) a) := by
  by_cases hact : p.is_active = true
  case neg =>
    have hact' : p.is_active = false := by revert hact; cases p.is_active <;> simp
    rw [gop_inactive env perm p e fn hact'] at h
    simp only [Except.ok.injEq, Prod.mk.injEq] at h
    exact Or.inl ⟨h.2.1.symm, Or.inl ⟨hact', h.1.symm⟩⟩
  case pos =>
    rcases hc : lookupKV p.olp_cache (mkKey fn perm e.pk) with _ | v
    case some =>
      rw [gop_cached env perm p e fn v hact hc] at h
      simp only [Except.ok.injEq, Prod.mk.injEq] at h
      exact Or.inl ⟨h.2.1.symm, Or.inr (congrArg Option.some h.1)⟩
    case none =>
      rcases hm : model_has_perm env p perm with ⟨b, p1⟩
      have hst := model_has_perm_state env p perm
      rw [hm] at hst
      cases b
      case false =>
        rw [gop_miss_nomodel env perm p p1 e fn hact hc hm] at h
        simp only [Except.ok.injEq, Prod.mk.injEq] at h
        exact Or.inr ⟨p1, hst, by rw [← h.2.1, h.1]⟩
      case true =>
        rcases ha : e.attrs ("_" ++ fn ++ "_can_" ++ action_code perm) with _ | f
        case none =>
          rw [gop_miss_noattr env perm p p1 e fn hact hc hm ha] at h
          simp only [Except.ok.injEq, Prod.mk.injEq] at h
          exact Or.inr ⟨p1, hst, by rw [← h.2.1, h.1]⟩
        case some =>
          cases hf : f (if fn = "user" then PredArg.user p1
                        else PredArg.groups p1.groups)
          case value v =>
            rw [gop_miss_value env perm p p1 e fn f v hact hc hm ha hf] at h
            simp only [Except.ok.injEq, Prod.mk.injEq] at h
            exact Or.inr ⟨p1, hst, by rw [← h.2.1, h.1]⟩
          case denied =>
            rw [gop_miss_denied env perm p p1 e fn f hact hc hm ha hf] at h
            simp only [Except.ok.injEq, Prod.mk.injEq] at h
            exact Or.inr ⟨p1, hst, by rw [← h.2.1, h.1]⟩
          case error =>
            rw [gop_miss_error env perm p p1 e fn f hact hc hm ha hf] at h
            simp at h

theorem gop_ok_flags (env : Env) (perm : String) (p : Principal) (e : Entity)
    (fn : String) (a : Access) (p' : Principal) (l : List String)
    (h : get_object_permission env perm p e fn = .ok (a, p', l)) :
    p'.is_active = p.is_active ∧ p'.is_superuser = p.is_superuser ∧
    p'.is_anonymous = p.is_anonymous ∧ p'.groups = p.groups ∧ p'.uid = p.uid := by
  rcases gop_ok_state env perm p e fn a p' l h with ⟨hp, _⟩ | ⟨p1, hp1, hp⟩
  · rw [hp]; exact ⟨rfl, rfl, rfl, rfl, rfl⟩
  · rcases hp1 with h1 | h1 <;> rw [hp, h1] <;>
      simp [write_olp, set_model_perm_caches]

theorem gop_ok_lookup_self (env : Env) (perm : String) (p : Principal)
    (e : Entity) (fn : String) (a : Access) (p' : Principal) (l : List String)
    (hact : p.is_active = true)
    (h : get_object_permission env perm p e fn = .ok (a, p', l)) :
    lookupKV p'.olp_cache (mkKey fn perm e.pk) = some a := by
  rcases gop_ok_state env perm p e fn a p' l h with ⟨hp, hv | hv⟩ | ⟨p1, hp1, hp⟩
  · rw [hv.1] at hact; exact absurd hact (by simp)
  · rw [hp]; exact hv
  · rw [hp]
    exact lookup_insert_self _ _ _

theorem gop_ok_lookup_other (env : Env) (perm : String) (p : Principal)
    (e : Entity) (fn : String) (a : Access) (p' : Principal) (l : List String)
    (k : String) (hk : k ≠ mkKey fn perm e.pk)
    (h : get_object_permission env perm p e fn = .ok (a, p', l)) :
    lookupKV p'.olp_cache k = lookupKV p.olp_cache k := by
  rcases gop_ok_state env perm p e fn a p' l h with ⟨hp, _⟩ | ⟨p1, hp1, hp⟩
  · rw [hp]
  · have holp : p1.olp_cache = p.olp_cache := by
      rcases hp1 with h1 | h1 <;> rw [h1] <;> simp [set_model_perm_caches]
    rw [hp]
    unfold write_olp
    simp only
    rw [lookup_insert_ne _ _ _ _ hk, holp]

/-! ### Case equations and invariants for `backend_has_perm` -/

theorem backend_inactive (env : Env) (p : Principal) (perm : String) (e : Entity)
    (hact : p.is_active = false) :
    backend_has_perm env p perm (some e) = .ok (false, p, []) := by
  simp [backend_has_perm, gop_inactive env perm p e "user" hact,
        gop_inactive env perm p e "group" hact, truthy]

theorem backend_user_granted (env : Env) (p : Principal) (perm : String)
    (e : Entity) (ua : Access) (pu : Principal) (lu : List String)
    (hu : get_object_permission env perm p e "user" = .ok (ua, pu, lu))
    (ht : truthy ua = true) :
    backend_has_perm env p perm (some e) = .ok (true, pu, lu) := by
  simp [backend_has_perm, hu, ht]

theorem backend_user_error (env : Env) (p : Principal) (perm : String)
    (e : Entity) (u : Unit)
    (hu : get_object_permission env perm p e "user" = .error u) :
    backend_has_perm env p perm (some e) = .error u := by
  simp [backend_has_perm, hu]

theorem backend_group_error (env : Env) (p : Principal) (perm : String)
    (e : Entity) (ua : Access) (pu : Principal) (lu : List String) (u : Unit)
    (hu : get_object_permission env perm p e "user" = .ok (ua, pu, lu))
    (ht : truthy ua = false)
    (hg : get_object_permission env perm pu e "group" = .error u) :
    backend_has_perm env p perm (some e) = .error u := by
  simp [backend_has_perm, hu, ht, hg]

theorem backend_both (env : Env) (p : Principal) (perm : String) (e : Entity)
    (ua : Access) (pu : Principal) (lu : List String)
    (ga : Access) (pg : Principal) (lg : List String)
    (hu : get_object_permission env perm p e "user" = .ok (ua, pu, lu))
    (ht : truthy ua = false)
    (hg : get_object_permission env perm pu e "group" = .ok (ga, pg, lg)) :
    backend_has_perm env p perm (some e) =
      .ok (truthy ua || truthy ga || (ua.isNone && ga.isNone), pg, lu ++ lg) := by
  simp [backend_has_perm, hu, ht, hg]

theorem backend_ok_inv (env : Env) (p : Principal) (perm : String) (e : Entity)
    (b : Bool) (p1 : Principal) (l1 : List String)
    (hact : p.is_active = true)
    (h : backend_has_perm env p perm (some e) = .ok (b, p1, l1)) :
    p1.is_active = true ∧
    ∃ ua, lookupKV p1.olp_cache (mkKey "user" perm e.pk) = some ua ∧
      ((truthy ua = true ∧ b = true) ∨
       (truthy ua = false ∧
        ∃ ga, lookupKV p1.olp_cache (mkKey "group" perm e.pk) = some ga ∧
          b = (truthy ua || truthy ga || (ua.isNone && ga.isNone)))) := by
  rcases hu : get_object_permission env perm p e "user" with u | ⟨ua, pu, lu⟩
  · rw [backend_user_error env p perm e u hu] at h
    simp at h
  · cases ht : truthy ua
    case true =>
      rw [backend_user_granted env p perm e ua pu lu hu ht] at h
      simp only [Except.ok.injEq, Prod.mk.injEq] at h
      have hfl := gop_ok_flags env perm p e "user" ua pu lu hu
      refine ⟨by rw [← h.2.1, hfl.1, hact], ua, ?_, Or.inl ⟨ht, h.1.symm⟩⟩
      rw [← h.2.1]
      exact gop_ok_lookup_self env perm p e "user" ua pu lu hact hu
    case false =>
      rcases hg : get_object_permission env perm pu e "group" with u | ⟨ga, pg, lg⟩
      · rw [backend_group_error env p perm e ua pu lu u hu ht hg] at h
        simp at h
      · rw [backend_both env p perm e ua pu lu ga pg lg hu ht hg] at h
        simp only [Except.ok.injEq, Prod.mk.injEq] at h
        have hflu := gop_ok_flags env perm p e "user" ua pu lu hu
        have hpuact : pu.is_active = true := by rw [hflu.1, hact]
        have hflg := gop_ok_flags env perm pu e "group" ga pg lg hg
        refine ⟨by rw [← h.2.1, hflg.1, hpuact], ua, ?_,
          Or.inr ⟨ht, ga, ?_, h.1.symm⟩⟩
        · rw [← h.2.1]
          rw [gop_ok_lookup_other env perm pu e "group" ga pg lg
            (mkKey "user" perm e.pk) (userKey_ne_groupKey _ _ _ _) hg]
          exact gop_ok_lookup_self env perm p e "user" ua pu lu hact hu
        · rw [← h.2.1]
          exact gop_ok_lookup_self env perm pu e "group" ga pg lg hpuact hg

theorem backend_second (env : Env) (p : Principal) (perm : String) (e : Entity)
    (b : Bool) (p1 : Principal) (l1 : List String)
    (h : backend_has_perm env p perm (some e) = .ok (b, p1, l1)) :
    backend_has_perm env p1 perm (some e) = .ok (b, p1, []) := by
  by_cases hact : p.is_active = true
  · obtain ⟨hp1act, ua, hua, hcase⟩ := backend_ok_inv env p perm e b p1 l1 hact h
    rcases hcase with ⟨ht, hb⟩ | ⟨ht, ga, hga, hb⟩
    · rw [backend_user_granted env p1 perm e ua p1 []
        (gop_cached env perm p1 e "user" ua hp1act hua) ht, hb]
    · have h2 := backend_both env p1 perm e ua p1 [] ga p1 []
        (gop_cached env perm p1 e "user" ua hp1act hua) ht
        (gop_cached env perm p1 e "group" ga hp1act hga)
      rw [hb]
      simpa using h2
  · have hact' : p.is_active = false := by
      revert hact; cases p.is_active <;> simp
    rw [backend_inactive env p perm e hact'] at h
    simp only [Except.ok.injEq, Prod.mk.injEq] at h
    rw [← h.2.1, ← h.1]
    exact backend_inactive env p perm e hact'

/-! ### Concrete fixtures used by witnesses and counterexamples -/

/-- An environment in default (non-universal) mode whose catalog grants
every model-level permission to everybody. -/
def sampleEnv : Env :=
  { universal_olp := false, catalog := fun _ _ => true,
    perm_codenames := fun _ _ => ["view_x"] }

/-- An environment whose catalog grants nobody anything. -/
def sampleEnvNoPerm : Env :=
  { universal_olp := false, catalog := fun _ _ => false,
    perm_codenames := fun _ _ => ["view_x"] }

/-- An ordinary active user, freshly loaded. -/
def sampleUser : Principal := freshPrincipal 1 true false false []

/-- An inactive user. -/
def inactiveUser : Principal := freshPrincipal 2 false false false []

/-- An active superuser. -/
def superUser : Principal := freshPrincipal 3 true true false []

/-- An anonymous principal whose active flag is set. -/
def anonUser : Principal := freshPrincipal 4 true false true []

/-- An entity with no predicates at all. -/
def bareEntity : Entity :=
  { pk := "1", app_label := "app", model_name := "x", attrs := fun _ => none }

/-- Boolean truth table underlying the final aggregation: the Python
expression `user_access or group_access or (user_access is None and
group_access is None)` is truthy iff a source returned `True` or both
were `None`. -/
theorem truth_table (ua ga : Access) :
    (truthy ua || truthy ga || (ua.isNone && ga.isNone)) = true ↔
      ua = some true ∨ ga = some true ∨ (ua = none ∧ ga = none) := by
  rcases ua with _ | b <;> rcases ga with _ | c
  · simp [truthy]
  · cases c <;> simp [truthy]
  · cases b <;> simp [truthy]
  · cases b <;> cases c <;> simp [truthy]

/-- C1: for every principal, permission and entity whose two source
resolutions return decisions `ua` and `ga`, the engine's decision is
true if and only if the user-source decision is Granted (`some true`),
or the group-source decision is Granted, or both are NoOpinion
(`none`); in particular a Denied (`some false`) from one source
combined with NoOpinion from the other yields false. -/
theorem C1_decide_truth_table (env : Env) (p : Principal) (perm : String)
    (e : Entity) (ua ga : Access) (p1 p2 : Principal) (l1 l2 : List String)
    (hu : get_object_permission env perm p e "user" = .ok (ua, p1, l1))
    (hg : get_object_permission env perm p1 e "group" = .ok (ga, p2, l2)) :
    decidePerm env p perm (some e) = .ok true ↔
      ua = some true ∨ ga = some true ∨ (ua = none ∧ ga = none) := by
  have hD : decidePerm env p perm (some e) =
      .ok (truthy ua || truthy ga || (ua.isNone && ga.isNone)) := by
    cases ht : truthy ua
    case false =>
      rw [decidePerm, backend_both env p perm e ua p1 l1 ga p2 l2 hu ht hg]
      simp [ht, Except.map]
    case true =>
      rw [decidePerm, backend_user_granted env p perm e ua p1 l1 hu ht]
      simp [ht, Except.map]
  rw [hD]
  simp only [Except.ok.injEq]
  exact truth_table ua ga

/-- Witness for C1: an active user holding the model-level permission on
an entity with no predicates — both sources report NoOpinion, and the
decision is true. -/
theorem C1_witness :
    decidePerm sampleEnv sampleUser "app.view_x" (some bareEntity) = .ok true :=
  (C1_decide_truth_table sampleEnv sampleUser "app.view_x" bareEntity
    none none _ _ _ _ rfl rfl).mpr (Or.inr (Or.inr ⟨rfl, rfl⟩))

/-- The model-level answer depends only on the principal's flags and
identity, not on its caches. -/
theorem model_has_perm_congr (env : Env) (p q : Principal) (perm : String)
    (h1 : q.is_active = p.is_active) (h2 : q.is_superuser = p.is_superuser)
    (h3 : q.is_anonymous = p.is_anonymous) (h4 : q.uid = p.uid) :
    (model_has_perm env q perm).1 = (model_has_perm env p perm).1 := by
  unfold model_has_perm model_backend_has_perm
  rw [h1, h2, h3, h4]
  split
  · rfl
  · split
    · rfl
    · rfl

/-- C6: for every inactive principal, permission and entity, the
decision is false, the backend returns the principal untouched (no cache
entry is read or written, no catalog lookup has any effect, and the
predicate-invocation log is empty), and every `allPermissions` variant
returns the empty set. -/
theorem C6_inactive_denies_without_cache (env : Env) (p : Principal)
    (perm : String) (e : Entity) (hact : p.is_active = false) :
    decidePerm env p perm (some e) = .ok false ∧
    backend_has_perm env p perm (some e) = .ok (false, p, []) ∧
    (∀ fn, get_object_permissions env p (some e) fn = .ok ([], p, [])) := by
  refine ⟨?_, backend_inactive env p perm e hact, ?_⟩
  · rw [decidePerm, backend_inactive env p perm e hact]
    rfl
  · intro fn
    simp [get_object_permissions, hact]

/-- Witness for C6 at a concrete inactive user. -/
theorem C6_witness :
    decidePerm sampleEnv inactiveUser "app.view_x" (some bareEntity) = .ok false ∧
    get_object_permissions sampleEnv inactiveUser (some bareEntity) none =
      .ok ([], inactiveUser, []) :=
  ⟨(C6_inactive_denies_without_cache sampleEnv inactiveUser "app.view_x"
      bareEntity rfl).1,
   (C6_inactive_denies_without_cache sampleEnv inactiveUser "app.view_x"
      bareEntity rfl).2.2 none⟩

/-- Counterexample to C2 as stated: a concrete inactive principal that
lacks the model-level permission (the catalog answers false). Resolving
the user source yields Denied and the decision is false, but the
principal comes back untouched: no Denied decision is written to the
cache, contradicting the claim's cache-write clause (which quantified
over every principal). -/
theorem C2_counterexample :
    inactiveUser.is_active = false ∧
    sampleEnvNoPerm.catalog inactiveUser.uid "app.view_x" = false ∧
    get_object_permission sampleEnvNoPerm "app.view_x" inactiveUser bareEntity
      "user" = .ok (some false, inactiveUser, []) ∧
    lookupKV inactiveUser.olp_cache (mkKey "user" "app.view_x" bareEntity.pk) =
      none :=
  ⟨rfl, rfl, rfl, rfl⟩

/-- C2 (amended): for every ACTIVE principal that lacks the model-level
permission, resolving either source for a key not already cached yields
Denied without invoking any predicate, writes that Denied to the cache,
and the decision is false. -/
theorem C2_no_model_perm_denies (env : Env) (p : Principal) (perm : String)
    (e : Entity) (fn : String) (hact : p.is_active = true)
    (hm : (model_has_perm env p perm).1 = false)
    (hcu : lookupKV p.olp_cache (mkKey "user" perm e.pk) = none)
    (hcg : lookupKV p.olp_cache (mkKey "group" perm e.pk) = none)
    (hfn : fn = "user" ∨ fn = "group") :
    (∃ p', get_object_permission env perm p e fn = .ok (some false, p', []) ∧
      lookupKV p'.olp_cache (mkKey fn perm e.pk) = some (some false)) ∧
    decidePerm env p perm (some e) = .ok false := by
  rcases hm1 : model_has_perm env p perm with ⟨b1, p1⟩
  have hb1 : b1 = false := by rw [hm1] at hm; exact hm
  subst hb1
  constructor
  · have hc : lookupKV p.olp_cache (mkKey fn perm e.pk) = none := by
      rcases hfn with h | h <;> rw [h]
      · exact hcu
      · exact hcg
    refine ⟨write_olp p1 (mkKey fn perm e.pk) (some false),
      gop_miss_nomodel env perm p p1 e fn hact hc hm1, ?_⟩
    unfold write_olp
    exact lookup_insert_self _ _ _
  · have hA := gop_miss_nomodel env perm p p1 e "user" hact hcu hm1
    have hflA := gop_ok_flags env perm p e "user" (some false)
      (write_olp p1 (mkKey "user" perm e.pk) (some false)) [] hA
    have hactA : (write_olp p1 (mkKey "user" perm e.pk) (some false)).is_active
        = true := by rw [hflA.1, hact]
    have hlookA : lookupKV
        (write_olp p1 (mkKey "user" perm e.pk) (some false)).olp_cache
        (mkKey "group" perm e.pk) = none := by
      rw [gop_ok_lookup_other env perm p e "user" (some false) _ []
        (mkKey "group" perm e.pk) (Ne.symm (userKey_ne_groupKey _ _ _ _)) hA]
      exact hcg
    have hmA : (model_has_perm env
        (write_olp p1 (mkKey "user" perm e.pk) (some false)) perm).1 = false := by
      rw [model_has_perm_congr env p _ perm hflA.1 hflA.2.1 hflA.2.2.1
        hflA.2.2.2.2, hm1]
    rcases hmA' : model_has_perm env
        (write_olp p1 (mkKey "user" perm e.pk) (some false)) perm with ⟨b2, p2⟩
    have hb2 : b2 = false := by rw [hmA'] at hmA; exact hmA
    subst hb2
    have hB := gop_miss_nomodel env perm _ p2 e "group" hactA hlookA hmA'
    rw [decidePerm, backend_both env p perm e (some false) _ [] (some false) _ []
      hA rfl hB]
    rfl

/-- Witness for the amended C2: a concrete active user in an environment
whose catalog grants nothing. -/
theorem C2_witness :
    (∃ p', get_object_permission sampleEnvNoPerm "app.view_x" sampleUser
        bareEntity "user" = .ok (some false, p', []) ∧
      lookupKV p'.olp_cache (mkKey "user" "app.view_x" bareEntity.pk) =
        some (some false)) ∧
    decidePerm sampleEnvNoPerm sampleUser "app.view_x" (some bareEntity) =
      .ok false :=
  C2_no_model_perm_denies sampleEnvNoPerm sampleUser "app.view_x" bareEntity
    "user" rfl rfl rfl rfl (Or.inl rfl)

/-- An entity carrying a would-grant predicate under the name WITHOUT
the leading underscore (`user_can_delete`), the name the original claim
says is consulted. -/
def noUnderscoreEntity : Entity :=
  { pk := "1", app_label := "app", model_name := "x",
    attrs := fun s => if s = "user_can_delete"
      then some (fun _ => .value (some true)) else none }

/-- An entity whose user predicate for action `delete` lives under the
name the code actually consults (`_user_can_delete`) and grants. -/
def underscoreEntity : Entity :=
  { pk := "1", app_label := "app", model_name := "x",
    attrs := fun s => if s = "_user_can_delete"
      then some (fun _ => .value (some true)) else none }

/-- Counterexample to C3 as stated: the entity exposes an attribute
named exactly `user_can_delete` (no leading underscore) whose predicate
would grant, yet resolving the user source for `app.delete` yields
NoOpinion with an empty invocation log — the attribute is not consulted,
because the code looks up `_user_can_delete`. -/
theorem C3_counterexample :
    (noUnderscoreEntity.attrs "user_can_delete").isSome = true ∧
    get_object_permission sampleEnv "app.delete" sampleUser noUnderscoreEntity
      "user" =
      .ok (none, write_olp (set_model_perm_caches sampleUser)
        (mkKey "user" "app.delete" "1") none, []) :=
  ⟨rfl, rfl⟩

/-- C3 (amended): the predicate consulted is the attribute named
`_{source}_can_{action}` — with a leading underscore — where the action
is the segment of the permission after the last dot; if that attribute
is absent the decision is NoOpinion, and if present the predicate is
invoked (it appears in the invocation log) and its returned value is the
decision. -/
theorem C3_predicate_name (env : Env) (p p1 : Principal) (perm : String)
    (e : Entity) (fn : String) (hact : p.is_active = true)
    (hc : lookupKV p.olp_cache (mkKey fn perm e.pk) = none)
    (hm : model_has_perm env p perm = (true, p1)) :
    (e.attrs ("_" ++ fn ++ "_can_" ++ action_code perm) = none →
      get_object_permission env perm p e fn =
        .ok (none, write_olp p1 (mkKey fn perm e.pk) none, [])) ∧
    (∀ f v, e.attrs ("_" ++ fn ++ "_can_" ++ action_code perm) = some f →
      f (if fn = "user" then PredArg.user p1 else PredArg.groups p1.groups) =
        .value v →
      get_object_permission env perm p e fn =
        .ok (v, write_olp p1 (mkKey fn perm e.pk) v, [mkKey fn perm e.pk])) :=
  ⟨fun ha => gop_miss_noattr env perm p p1 e fn hact hc hm ha,
   fun f v ha hf => gop_miss_value env perm p p1 e fn f v hact hc hm ha hf⟩

/-- Witness for the amended C3: with no `_user_can_delete` attribute the
decision is NoOpinion; with one that grants, it is invoked and grants. -/
theorem C3_witness :
    get_object_permission sampleEnv "app.delete" sampleUser bareEntity "user" =
      .ok (none, write_olp (set_model_perm_caches sampleUser)
        (mkKey "user" "app.delete" "1") none, []) ∧
    get_object_permission sampleEnv "app.delete" sampleUser underscoreEntity
      "user" =
      .ok (some true, write_olp (set_model_perm_caches sampleUser)
        (mkKey "user" "app.delete" "1") (some true),
        [mkKey "user" "app.delete" "1"]) :=
  ⟨(C3_predicate_name sampleEnv sampleUser _ "app.delete" bareEntity "user"
      rfl rfl rfl).1 rfl,
   (C3_predicate_name sampleEnv sampleUser _ "app.delete" underscoreEntity
      "user" rfl rfl rfl).2 _ (some true) rfl rfl⟩

/-- An entity whose user predicate for action `view_x` raises the
explicit deny signal (`PermissionDenied`). -/
def denySignalEntity : Entity :=
  { pk := "1", app_label := "app", model_name := "x",
    attrs := fun s => if s = "_user_can_view_x"
      then some (fun _ => .denied) else none }

/-- An entity whose user predicate for action `view_x` raises an
unexpected exception. -/
def errorEntity : Entity :=
  { pk := "1", app_label := "app", model_name := "x",
    attrs := fun s => if s = "_user_can_view_x"
      then some (fun _ => .error) else none }

/-- C5: a predicate that raises the explicit deny signal produces a
Denied decision, cached exactly like a falsy return; a predicate that
raises any other exception makes the whole resolution propagate the
exception (`Except.error`), an outcome that carries no updated principal
and hence no cache write for the key. -/
theorem C5_predicate_failures (env : Env) (p p1 : Principal) (perm : String)
    (e1 e2 : Entity) (fn : String) (f1 f2 : Pred)
    (hact : p.is_active = true)
    (hm : model_has_perm env p perm = (true, p1))
    (hc1 : lookupKV p.olp_cache (mkKey fn perm e1.pk) = none)
    (hc2 : lookupKV p.olp_cache (mkKey fn perm e2.pk) = none)
    (ha1 : e1.attrs ("_" ++ fn ++ "_can_" ++ action_code perm) = some f1)
    (ha2 : e2.attrs ("_" ++ fn ++ "_can_" ++ action_code perm) = some f2)
    (hf1 : f1 (if fn = "user" then PredArg.user p1 else PredArg.groups p1.groups)
      = .denied)
    (hf2 : f2 (if fn = "user" then PredArg.user p1 else PredArg.groups p1.groups)
      = .error) :
    (get_object_permission env perm p e1 fn =
       .ok (some false, write_olp p1 (mkKey fn perm e1.pk) (some false),
            [mkKey fn perm e1.pk]) ∧
     lookupKV (write_olp p1 (mkKey fn perm e1.pk) (some false)).olp_cache
       (mkKey fn perm e1.pk) = some (some false)) ∧
    get_object_permission env perm p e2 fn = .error () :=
  ⟨⟨gop_miss_denied env perm p p1 e1 fn f1 hact hc1 hm ha1 hf1,
    lookup_insert_self _ _ _⟩,
   gop_miss_error env perm p p1 e2 fn f2 hact hc2 hm ha2 hf2⟩

/-- Witness for C5 at concrete entities whose predicates raise the deny
signal and an unexpected exception respectively. -/
theorem C5_witness :
    (get_object_permission sampleEnv "app.view_x" sampleUser denySignalEntity
       "user" =
       .ok (some false, write_olp (set_model_perm_caches sampleUser)
         (mkKey "user" "app.view_x" "1") (some false),
         [mkKey "user" "app.view_x" "1"]) ∧
     lookupKV (write_olp (set_model_perm_caches sampleUser)
         (mkKey "user" "app.view_x" "1") (some false)).olp_cache
       (mkKey "user" "app.view_x" "1") = some (some false)) ∧
    get_object_permission sampleEnv "app.view_x" sampleUser errorEntity
      "user" = .error () :=
  C5_predicate_failures sampleEnv sampleUser _ "app.view_x" denySignalEntity
    errorEntity "user" _ _ rfl rfl rfl rfl rfl rfl rfl rfl

/-- C7: for every active superuser outside "universal" mode, the
user-level decision is true for any permission and entity — returned
immediately, with the principal untouched and no predicate invoked,
independent of any catalog hypothesis — and the full-catalog permission
set is returned by `allPermissions`. -/
theorem C7_superuser_bypass (env : Env) (p : Principal) (perm : String)
    (e : Entity) (huniv : env.universal_olp = false)
    (hact : p.is_active = true) (hsu : p.is_superuser = true)
    (hanon : p.is_anonymous = false) :
    olp_has_perm env p perm (some e) = .ok (true, p, []) ∧
    get_object_permissions env p (some e) none =
      .ok (perms_for_model env e, p, []) := by
  constructor
  · simp [olp_has_perm, huniv, hact, hsu]
  · simp [get_object_permissions, hact, hanon, hsu, huniv]

/-- Witness for C7: a concrete superuser in an environment whose catalog
grants nothing still decides true and receives the full catalog. -/
theorem C7_witness :
    olp_has_perm sampleEnvNoPerm superUser "app.view_x" (some bareEntity) =
      .ok (true, superUser, []) ∧
    get_object_permissions sampleEnvNoPerm superUser (some bareEntity) none =
      .ok (["app.view_x"], superUser, []) :=
  C7_superuser_bypass sampleEnvNoPerm superUser "app.view_x" bareEntity
    rfl rfl rfl rfl

/-- An active anonymous principal with a previously cached Granted
decision for `app.view_x` on entity pk `"1"`. -/
def anonUserCached : Principal :=
  {anonUser with olp_cache := [(mkKey "user" "app.view_x" "1", some true)]}

/-- C10: every `allPermissions` variant is empty for an anonymous
principal even when active, while the decision path applies no anonymous
short-circuit: an active anonymous principal's resolution reads the
cache normally (a cached value is returned as-is) and on a miss resolves
through the catalog, which denies anonymous principals at the model
level, writing that Denied to the cache. -/
theorem C10_anonymous (env : Env) (p : Principal) (perm : String) (e : Entity)
    (v : Access) (hanon : p.is_anonymous = true) :
    (∀ fn, get_object_permissions env p (some e) fn = .ok ([], p, [])) ∧
    (p.is_active = true →
      (lookupKV p.olp_cache (mkKey "user" perm e.pk) = some v →
        get_object_permission env perm p e "user" = .ok (v, p, [])) ∧
      (lookupKV p.olp_cache (mkKey "user" perm e.pk) = none →
        get_object_permission env perm p e "user" =
          .ok (some false, write_olp p (mkKey "user" perm e.pk) (some false),
               []))) := by
  refine ⟨fun fn => by simp [get_object_permissions, hanon], fun hact => ⟨?_, ?_⟩⟩
  · exact fun hc => gop_cached env perm p e "user" v hact hc
  · intro hc
    have hm : model_has_perm env p perm = (false, p) := by
      simp [model_has_perm, model_backend_has_perm, hanon]
    exact gop_miss_nomodel env perm p p e "user" hact hc hm

/-- Witness for C10 at a concrete active anonymous principal: empty
permission set, a cache-respecting decision on a cached instance, and a
cached model-level deny on a miss. -/
theorem C10_witness :
    get_object_permissions sampleEnv anonUser (some bareEntity) none =
      .ok ([], anonUser, []) ∧
    get_object_permission sampleEnv "app.view_x" anonUser bareEntity "user" =
      .ok (some false, write_olp anonUser (mkKey "user" "app.view_x" "1")
        (some false), []) ∧
    get_object_permission sampleEnv "app.view_x" anonUserCached bareEntity
      "user" = .ok (some true, anonUserCached, []) :=
  ⟨(C10_anonymous sampleEnv anonUser "app.view_x" bareEntity none rfl).1 none,
   ((C10_anonymous sampleEnv anonUser "app.view_x" bareEntity none rfl).2
      rfl).2 rfl,
   ((C10_anonymous sampleEnv anonUserCached "app.view_x" bareEntity (some true)
      rfl).2 rfl).1 rfl⟩

/-- A single source resolution invokes at most one predicate: the log is
empty or exactly the key of the resolved source. -/
theorem gop_ok_log (env : Env) (perm : String) (p : Principal) (e : Entity)
    (fn : String) (a : Access) (p' : Principal) (l : List String)
    (h : get_object_permission env perm p e fn = .ok (a, p', l)) :
    l = [] ∨ l = [mkKey fn perm e.pk] := by
  by_cases hact : p.is_active = true
  case neg =>
    have hact' : p.is_active = false := by revert hact; cases p.is_active <;> simp
    rw [gop_inactive env perm p e fn hact'] at h
    simp only [Except.ok.injEq, Prod.mk.injEq] at h
    exact Or.inl h.2.2.symm
  case pos =>
    rcases hc : lookupKV p.olp_cache (mkKey fn perm e.pk) with _ | v
    case some =>
      rw [gop_cached env perm p e fn v hact hc] at h
      simp only [Except.ok.injEq, Prod.mk.injEq] at h
      exact Or.inl h.2.2.symm
    case none =>
      rcases hm : model_has_perm env p perm with ⟨b, p1⟩
      cases b
      case false =>
        rw [gop_miss_nomodel env perm p p1 e fn hact hc hm] at h
        simp only [Except.ok.injEq, Prod.mk.injEq] at h
        exact Or.inl h.2.2.symm
      case true =>
        rcases ha : e.attrs ("_" ++ fn ++ "_can_" ++ action_code perm) with _ | f
        case none =>
          rw [gop_miss_noattr env perm p p1 e fn hact hc hm ha] at h
          simp only [Except.ok.injEq, Prod.mk.injEq] at h
          exact Or.inl h.2.2.symm
        case some =>
          cases hf : f (if fn = "user" then PredArg.user p1
                        else PredArg.groups p1.groups)
          case value v =>
            rw [gop_miss_value env perm p p1 e fn f v hact hc hm ha hf] at h
            simp only [Except.ok.injEq, Prod.mk.injEq] at h
            exact Or.inr h.2.2.symm
          case denied =>
            rw [gop_miss_denied env perm p p1 e fn f hact hc hm ha hf] at h
            simp only [Except.ok.injEq, Prod.mk.injEq] at h
            exact Or.inr h.2.2.symm
          case error =>
            rw [gop_miss_error env perm p p1 e fn f hact hc hm ha hf] at h
            simp at h

/-- Within one decision, no predicate is invoked twice: the two sources
have distinct keys and each contributes at most one invocation. -/
theorem backend_ok_log (env : Env) (p : Principal) (perm : String) (e : Entity)
    (b : Bool) (p1 : Principal) (l1 : List String)
    (h : backend_has_perm env p perm (some e) = .ok (b, p1, l1)) :
    l1.Nodup := by
  by_cases hact : p.is_active = true
  case neg =>
    have hact' : p.is_active = false := by revert hact; cases p.is_active <;> simp
    rw [backend_inactive env p perm e hact'] at h
    simp only [Except.ok.injEq, Prod.mk.injEq] at h
    rw [← h.2.2]
    exact List.nodup_nil
  case pos =>
    rcases hu : get_object_permission env perm p e "user" with u | ⟨ua, pu, lu⟩
    · rw [backend_user_error env p perm e u hu] at h
      simp at h
    · cases ht : truthy ua
      case true =>
        rw [backend_user_granted env p perm e ua pu lu hu ht] at h
        simp only [Except.ok.injEq, Prod.mk.injEq] at h
        rw [← h.2.2]
        rcases gop_ok_log env perm p e "user" ua pu lu hu with hl | hl <;>
          simp [hl]
      case false =>
        rcases hg : get_object_permission env perm pu e "group" with u | ⟨ga, pg, lg⟩
        · rw [backend_group_error env p perm e ua pu lu u hu ht hg] at h
          simp at h
        · rw [backend_both env p perm e ua pu lu ga pg lg hu ht hg] at h
          simp only [Except.ok.injEq, Prod.mk.injEq] at h
          rw [← h.2.2]
          rcases gop_ok_log env perm p e "user" ua pu lu hu with hl | hl <;>
            rcases gop_ok_log env perm pu e "group" ga pg lg hg with hl' | hl' <;>
              simp [hl, hl', userKey_ne_groupKey]

/-- C4: the caching discipline. A cached key is returned as-is with the
principal untouched and no predicate invocation; a full decision invokes
each source's predicate at most once, and running the same decision
again on the resulting principal returns the same answer with no
predicate invocation at all; a freshly constructed principal has an
empty cache, and with an empty cache a resolution recomputes — it
re-invokes the predicate. -/
theorem C4_cache_discipline (env : Env) (perm : String) (e : Entity) :
    (∀ p v fn, p.is_active = true →
      lookupKV p.olp_cache (mkKey fn perm e.pk) = some v →
      get_object_permission env perm p e fn = .ok (v, p, [])) ∧
    (∀ p b p1 l1, backend_has_perm env p perm (some e) = .ok (b, p1, l1) →
      l1.Nodup ∧ backend_has_perm env p1 perm (some e) = .ok (b, p1, [])) ∧
    (∀ uid act su anon gs, (freshPrincipal uid act su anon gs).olp_cache = []) ∧
    (∀ p p1 f v fn, p.is_active = true → p.olp_cache = [] →
      model_has_perm env p perm = (true, p1) →
      e.attrs ("_" ++ fn ++ "_can_" ++ action_code perm) = some f →
      f (if fn = "user" then PredArg.user p1 else PredArg.groups p1.groups) =
        .value v →
      get_object_permission env perm p e fn =
        .ok (v, write_olp p1 (mkKey fn perm e.pk) v, [mkKey fn perm e.pk])) := by
  refine ⟨fun p v fn hact hc => gop_cached env perm p e fn v hact hc,
    fun p b p1 l1 h => ⟨backend_ok_log env p perm e b p1 l1 h,
      backend_second env p perm e b p1 l1 h⟩,
    fun uid act su anon gs => rfl,
    fun p p1 f v fn hact hemp hm ha hf => ?_⟩
  have hc : lookupKV p.olp_cache (mkKey fn perm e.pk) = none := by
    rw [hemp]; rfl
  exact gop_miss_value env perm p p1 e fn f v hact hc hm ha hf

/-- The principal state after a first granted user-source decision for
`app.delete` on `underscoreEntity`. -/
def c4P1 : Principal :=
  write_olp (set_model_perm_caches sampleUser)
    (mkKey "user" "app.delete" "1") (some true)

/-- A principal with a cached Granted user decision for `app.delete`. -/
def userCachedC4 : Principal :=
  {sampleUser with olp_cache := [(mkKey "user" "app.delete" "1", some true)]}

/-- Witness for C4: cached reuse, idempotent second decision with empty
invocation log, fresh empty cache, and recomputation on an empty cache. -/
theorem C4_witness :
    get_object_permission sampleEnv "app.delete" userCachedC4 underscoreEntity
      "user" = .ok (some true, userCachedC4, []) ∧
    ([mkKey "user" "app.delete" "1"].Nodup ∧
     backend_has_perm sampleEnv c4P1 "app.delete" (some underscoreEntity) =
       .ok (true, c4P1, [])) ∧
    (freshPrincipal 1 true false false []).olp_cache = [] ∧
    get_object_permission sampleEnv "app.delete" sampleUser underscoreEntity
      "user" =
      .ok (some true, c4P1, [mkKey "user" "app.delete" "1"]) :=
  ⟨(C4_cache_discipline sampleEnv "app.delete" underscoreEntity).1
      userCachedC4 (some true) "user" rfl rfl,
   (C4_cache_discipline sampleEnv "app.delete" underscoreEntity).2.1
      sampleUser true c4P1 [mkKey "user" "app.delete" "1"] rfl,
   (C4_cache_discipline sampleEnv "app.delete" underscoreEntity).2.2.1
      1 true false false [],
   (C4_cache_discipline sampleEnv "app.delete" underscoreEntity).2.2.2
      sampleUser _ _ (some true) "user" rfl rfl rfl rfl rfl⟩

/-- Counterexample to C8 as stated: two distinct (source, permission,
entity identity) triples whose formatted cache keys coincide, because
the `'-'` separator also occurs inside the permission identifier. -/
theorem C8_counterexample :
    mkKey "user" "a-b" "1" = mkKey "user" "a" "b-1" ∧
    (("user", "a-b", "1") : String × String × String) ≠ ("user", "a", "b-1") :=
  ⟨rfl, by decide⟩

/-- C8 (amended): distinct triples address distinct cache keys provided
the permission identifier contains no `'-'` character (the source
component is always `"user"` or `"group"`, which are dash-free; the
entity identity may contain dashes). With a dash inside the permission
identifier, collisions are possible. -/
theorem C8_cache_key_injective (s1 s2 p1 p2 k1 k2 : String)
    (hs1 : s1 = "user" ∨ s1 = "group") (hs2 : s2 = "user" ∨ s2 = "group")
    (hp1 : '-' ∉ p1.data) (hp2 : '-' ∉ p2.data)
    (h : mkKey s1 p1 k1 = mkKey s2 p2 k2) :
    s1 = s2 ∧ p1 = p2 ∧ k1 = k2 :=
  mkKey_inj hs1 hs2 hp1 hp2 h

/-- Witness for the amended C8 at concrete dash-free permissions. -/
theorem C8_witness :
    ("user" : String) = "user" ∧ ("app.view_x" : String) = "app.view_x" ∧
    ("b-1" : String) = "b-1" :=
  C8_cache_key_injective "user" "user" "app.view_x" "app.view_x" "b-1" "b-1"
    (Or.inl rfl) (Or.inl rfl) (by decide) (by decide) rfl

/-- Counterexample to C9 as stated: on a freshly constructed principal
(the empty prior sequence of decisions) `clear_perm_cache` does not
complete normally — the unguarded `del` of the absent
`_user_perm_cache` attribute raises `AttributeError`. -/
theorem C9_counterexample :
    sampleUser = freshPrincipal 1 true false false [] ∧
    (clear_perm_cache sampleUser).2 = false :=
  ⟨rfl, rfl⟩

/-- C9 (amended): `clear_perm_cache` always resets the object-level
decision cache to empty, so a subsequent resolution recomputes
(re-invoking catalog and predicate); it completes normally exactly when
the three model-level cache attributes are present (as after a prior
model-level resolution), and otherwise raises `AttributeError` after the
object-level cache has already been reset. -/
theorem C9_clear_cache (p : Principal) :
    (clear_perm_cache p).1.olp_cache = [] ∧
    ((clear_perm_cache p).2 = true ↔
      (p.user_perm_cache && p.group_perm_cache && p.perm_cache) = true) ∧
    (∀ env perm e fn p1 f v,
      (clear_perm_cache p).1.is_active = true →
      model_has_perm env (clear_perm_cache p).1 perm = (true, p1) →
      e.attrs ("_" ++ fn ++ "_can_" ++ action_code perm) = some f →
      f (if fn = "user" then PredArg.user p1 else PredArg.groups p1.groups) =
        .value v →
      get_object_permission env perm (clear_perm_cache p).1 e fn =
        .ok (v, write_olp p1 (mkKey fn perm e.pk) v, [mkKey fn perm e.pk])) := by
  have holp : (clear_perm_cache p).1.olp_cache = [] := by
    cases hu : p.user_perm_cache <;> cases hg : p.group_perm_cache <;>
      cases hp : p.perm_cache <;> simp [clear_perm_cache, hu, hg, hp]
  refine ⟨holp, ?_, ?_⟩
  · cases hu : p.user_perm_cache <;> cases hg : p.group_perm_cache <;>
      cases hp : p.perm_cache <;> simp [clear_perm_cache, hu, hg, hp]
  · intro env perm e fn p1 f v hact hm ha hf
    have hc : lookupKV (clear_perm_cache p).1.olp_cache (mkKey fn perm e.pk) =
        none := by rw [holp]; rfl
    exact gop_miss_value env perm (clear_perm_cache p).1 p1 e fn f v hact hc
      hm ha hf

/-- Witness for the amended C9: clearing a principal whose model-level
caches are present completes normally, resets the object-level cache,
and the next resolution re-invokes the predicate. -/
theorem C9_witness :
    (clear_perm_cache (set_model_perm_caches userCachedC4)).1.olp_cache = [] ∧
    (clear_perm_cache (set_model_perm_caches userCachedC4)).2 = true ∧
    get_object_permission sampleEnv "app.delete"
      (clear_perm_cache (set_model_perm_caches userCachedC4)).1
      underscoreEntity "user" =
      .ok (some true,
        write_olp (set_model_perm_caches
          (clear_perm_cache (set_model_perm_caches userCachedC4)).1)
          (mkKey "user" "app.delete" "1") (some true),
        [mkKey "user" "app.delete" "1"]) :=
  ⟨(C9_clear_cache (set_model_perm_caches userCachedC4)).1,
   (C9_clear_cache (set_model_perm_caches userCachedC4)).2.1.mpr rfl,
   (C9_clear_cache (set_model_perm_caches userCachedC4)).2.2 sampleEnv
     "app.delete" underscoreEntity "user" _ _ (some true) rfl rfl rfl rfl⟩

end Djem
